import Mathlib

/-!
Verification of the caligo asynchronous MongoDB bridge layer
(src/caligo/util/db/client.py, src/RobOto/core/client.py) against its
natural-language specification.  Pure data and control flow of the Python
source is shallowly embedded as Lean definitions; the effects a method
performs (blocking driver calls submitted through the execution bridge
`util.run_sync`) are recorded as explicit effect traces.  Parts of the
repository referenced but not present in the sample (the session context
manager, the command cursor, the change stream constructor, the worker
pool) are modelled from the specification; their doc comments say so.
-/

namespace Caligo

/-- Simple BSON-like scalar values, enough to embed command documents. -/
inductive MVal
  | int (n : Int)
  | str (s : String)
  deriving DecidableEq, Repr

/-- A BSON document, embedded as an ordered association list (the source
uses bson.SON, which preserves insertion order). -/
abbrev MDoc := List (String × MVal)

/-- Setting one key in a SON document: an existing key is updated in
place (keeping its position), a new key is appended at the end.  This is
the semantics of a single assignment inside dict.update on an ordered
mapping. -/
def sonSet (d : MDoc) (k : String) (v : MVal) : MDoc :=
  if d.any (fun p => p.1 == k) then
    d.map (fun p => if p.1 == k then (k, v) else p)
  else
    d ++ [(k, v)]

/-- SON.update with a keyword-argument mapping (ordered, unique keys):
fold sonSet over the entries. -/
def sonUpdate (d : MDoc) (kwargs : MDoc) : MDoc :=
  kwargs.foldl (fun acc p => sonSet acc p.1 p.2) d

/-- Opaque codec-options value (bson.CodecOptions); only identity matters
to the claims. -/
structure CodecOptions where
  tag : Nat
  deriving DecidableEq, Repr

/-- Default codec options (bson.codec_options.DEFAULT_CODEC_OPTIONS). -/
def DEFAULT_CODEC_OPTIONS : CodecOptions := ⟨0⟩

/-- Read preference kinds (pymongo.read_preferences.ReadPreference). -/
inductive ReadPref
  | primary
  | primaryPreferred
  | secondary
  | secondaryPreferred
  | nearest
  deriving DecidableEq, Repr

/-- Opaque write-concern value (pymongo.WriteConcern). -/
structure WriteConcern where
  tag : Nat
  deriving DecidableEq, Repr

/-- Default write concern (pymongo.write_concern.DEFAULT_WRITE_CONCERN). -/
def DEFAULT_WRITE_CONCERN : WriteConcern := ⟨0⟩

/-- Opaque read-concern value (pymongo.ReadConcern). -/
structure ReadConcern where
  tag : Nat
  deriving DecidableEq, Repr

/-- The blocking driver client handle (pymongo.MongoClient): its
configuration snapshot, as mirrored by the façade layer. -/
structure MongoClient where
  codec_options : CodecOptions
  read_preference : ReadPref
  write_concern : WriteConcern
  read_concern : ReadConcern
  deriving DecidableEq, Repr

/-- The blocking driver database handle (pymongo Database): name plus the
configuration it was created with. -/
structure MongoDatabase where
  name : String
  codec_options : CodecOptions
  read_preference : ReadPref
  write_concern : WriteConcern
  read_concern : ReadConcern
  deriving DecidableEq, Repr

/-- MongoClient.get_database: each explicitly supplied option overrides
the client default, an omitted (None) option inherits it. -/
def MongoClient.get_database (c : MongoClient) (name : String)
    (codec_options : Option CodecOptions) (read_preference : Option ReadPref)
    (write_concern : Option WriteConcern) (read_concern : Option ReadConcern) :
    MongoDatabase :=
  { name := name
    codec_options := codec_options.getD c.codec_options
    read_preference := read_preference.getD c.read_preference
    write_concern := write_concern.getD c.write_concern
    read_concern := read_concern.getD c.read_concern }

/-- The async client façade (AsyncClient): holds only the underlying
blocking handle, per the Resource Façade contract. -/
structure AsyncClient where
  dispatch : MongoClient
  deriving DecidableEq, Repr

/-- The async database façade (AsyncDatabase): a reference to its parent
client and to the underlying blocking database handle. -/
structure AsyncDatabase where
  client : AsyncClient
  dispatch : MongoDatabase
  deriving DecidableEq, Repr

/-- AsyncDatabase.name forwards to the underlying handle (via the
AsyncBaseProperty attribute mirror). -/
def AsyncDatabase.name (d : AsyncDatabase) : String :=
  d.dispatch.name

/-- The async session façade wrapper: for the client-level operations only
the wrapped driver session handle (its identity) matters. -/
structure AsyncClientSession where
  dispatch : Nat
  deriving DecidableEq, Repr

/-- A blocking driver call as built by a façade method: the closure over
the underlying handle together with its arguments. -/
inductive DriverCall
  | closeClient
  | dropDatabase (name : String) (session : Option Nat)
  | listDatabaseNames (session : Option Nat)
  | retryableReadCommand (db : MongoDatabase) (cmd : MDoc) (session : Option Nat)
  | serverInfo (session : Option Nat)
  deriving DecidableEq, Repr

/-- An I/O effect of a façade method: either a call submitted through the
execution bridge (util.run_sync) or a call performed directly on the
calling thread. -/
inductive Effect
  | bridge (call : DriverCall)
  | direct (call : DriverCall)
  deriving DecidableEq, Repr

/-- Whether an effect goes through the execution bridge. -/
def Effect.isBridge : Effect → Bool
  | .bridge _ => true
  | .direct _ => false

/-- Unwrapping an optional session façade exactly as the source does with
session.dispatch if session else session. -/
def sessionArg (session : Option AsyncClientSession) : Option Nat :=
  session.map (fun s => s.dispatch)

/-- AsyncClient.close: awaits util.run_sync(self.dispatch.close). -/
def AsyncClient.close (_c : AsyncClient) : List Effect :=
  [.bridge .closeClient]

/-- AsyncClient.drop_database: normalizes an AsyncDatabase argument to its
name, then awaits util.run_sync(self.dispatch.drop_database, name,
session=session.dispatch if session else session). -/
def AsyncClient.drop_database (_c : AsyncClient)
    (name_or_database : String ⊕ AsyncDatabase)
    (session : Option AsyncClientSession) : List Effect :=
  let name :=
    match name_or_database with
    | .inl n => n
    | .inr d => d.name
  [.bridge (.dropDatabase name (sessionArg session))]

/-- AsyncClient.list_database_names: awaits
util.run_sync(self.dispatch.list_database_names, session=...). -/
def AsyncClient.list_database_names (_c : AsyncClient)
    (session : Option AsyncClientSession) : List Effect :=
  [.bridge (.listDatabaseNames (sessionArg session))]

/-- AsyncClient.server_info: awaits
util.run_sync(self.dispatch.server_info, session=...). -/
def AsyncClient.server_info (_c : AsyncClient)
    (session : Option AsyncClientSession) : List Effect :=
  [.bridge (.serverInfo (sessionArg session))]

/-- Initial command-cursor data as built by list_databases: the literal
mapping with id 0, firstBatch res["databases"], ns "admin.$cmd". -/
structure CursorInit where
  id : Nat
  firstBatch : List MDoc
  ns : String
  deriving DecidableEq, Repr

/-- AsyncClient.list_databases: builds cmd = SON([("listDatabases", 1)])
updated with kwargs, obtains the admin database with explicit
DEFAULT_CODEC_OPTIONS, ReadPreference.PRIMARY and DEFAULT_WRITE_CONCERN,
submits database.dispatch._retryable_read_command through the bridge, and
wraps the "databases" array of the result (passed here as the parameter
res_databases) in a command cursor with id 0.  Returns the effect trace
and the cursor construction data. -/
def AsyncClient.list_databases (c : AsyncClient)
    (session : Option AsyncClientSession) (kwargs : MDoc)
    (res_databases : List MDoc) : List Effect × CursorInit :=
  let cmd := sonUpdate [("listDatabases", MVal.int 1)] kwargs
  let database :=
    c.dispatch.get_database "admin" (some DEFAULT_CODEC_OPTIONS)
      (some ReadPref.primary) (some DEFAULT_WRITE_CONCERN) none
  ([.bridge (.retryableReadCommand database cmd (sessionArg session))],
   { id := 0, firstBatch := res_databases, ns := "admin.$cmd" })

/-! Command cursor (Cursor Streamer).  The CommandCursor class itself is
not part of the sample; its iteration protocol is modelled from the
specification. -/

/-- Mutable state of a command cursor: current batch, read index, batch
cursor id, exhausted flag.  Modelled from the spec: hold current batch +
index; on advance past the end of a non-exhausted batch, issue a get-more
call using the stored cursor id, replacing the batch; on a batch with
cursor id zero, mark exhausted. -/
structure CursorState where
  batch : List MDoc
  index : Nat
  cursorId : Nat
  exhausted : Bool
  deriving DecidableEq, Repr

/-- The cursor built by list_databases from its CursorInit data. -/
def CursorInit.toState (ci : CursorInit) : CursorState :=
  { batch := ci.firstBatch, index := 0, cursorId := ci.id, exhausted := false }

/-- Modelled from the spec: one advance step of the cursor streamer.
Takes a get-more oracle (cursor id to fresh batch and new id).  Returns
the yielded document (none at end of sequence), the new state, and the
number of get-more calls issued during this step.  An exhausted cursor
yields no further elements rather than erroring. -/
def cursorNext (getMore : Nat → List MDoc × Nat) (c : CursorState) :
    Option MDoc × CursorState × Nat :=
  if c.exhausted then (none, c, 0)
  else if h : c.index < c.batch.length then
    (some (c.batch.get ⟨c.index, h⟩), { c with index := c.index + 1 }, 0)
  else if c.cursorId = 0 then
    (none, { c with exhausted := true }, 0)
  else
    let (nb, nid) := getMore c.cursorId
    match nb with
    | [] =>
      (none, { batch := [], index := 0, cursorId := nid, exhausted := nid == 0 }, 1)
    | d :: rest =>
      (some d, { batch := d :: rest, index := 1, cursorId := nid, exhausted := false }, 1)

/-- Iterating the cursor up to fuel steps: the list of yielded documents
and the total number of get-more calls, with the final state.  Stops at
the first step that yields nothing. -/
def cursorDrain (getMore : Nat → List MDoc × Nat) :
    Nat → CursorState → List MDoc × Nat × CursorState
  | 0, c => ([], 0, c)
  | fuel + 1, c =>
    match cursorNext getMore c with
    | (none, cNew, g) => ([], g, cNew)
    | (some d, cNew, g) =>
      let (ds, gs, cFin) := cursorDrain getMore fuel cNew
      (d :: ds, g + gs, cFin)

/-! Session and transaction manager.  AsyncClientSession's state machine
(client_session.py) is not part of the sample; it is modelled from the
specification. -/

/-- Transaction states of a session, as listed by the specification. -/
inductive TxnState
  | noTxn
  | starting
  | inProgress
  | committing
  | aborting
  | ended
  deriving DecidableEq, Repr

/-- How the scope that opened a session exits. -/
inductive ExitKind
  | normal
  | error
  | cancelled
  deriving DecidableEq, Repr

/-- Session-level driver calls issued while leaving a session scope. -/
inductive SessEvent
  | abortTxn
  | endSession
  deriving DecidableEq, Repr

/-- State of a session context: whether the underlying driver session has
been released, and the transaction state. -/
structure SessionCtx where
  released : Bool
  txn : TxnState
  deriving DecidableEq, Repr

/-- Modelled from the spec: the scope-exit handler of the session context
manager (AsyncClientSession.__aexit__, absent from the sample).  It runs
regardless of the exit kind: if a transaction is in-progress it is
aborted first, then the driver session is released.  Returns the final
session state and the trace of driver calls issued, in order. -/
def scopeExit (_k : ExitKind) (s : SessionCtx) : SessionCtx × List SessEvent :=
  if s.txn = .inProgress then
    ({ released := true, txn := .ended }, [.abortTxn, .endSession])
  else
    ({ s with released := true }, [.endSession])

/-- Modelled from the spec: with_session / start_session as a scoped
acquisition.  The body is summarized by how it exits (kind) and the
transaction state it leaves behind; the scope-exit handler then runs
unconditionally.  Returns the final session state and the exit trace. -/
def with_session (k : ExitKind) (txnAtExit : TxnState) :
    SessionCtx × List SessEvent :=
  scopeExit k { released := false, txn := txnAtExit }

/-- Outcome of a single driver commit attempt. -/
inductive CommitOutcome
  | success
  | transientError
  | fatalError
  deriving DecidableEq, Repr

/-- Errors surfaced by the transaction manager. -/
inductive TxnError
  | transient
  | fatal
  deriving DecidableEq, Repr

/-- Result of committing: the surfaced result, the transaction state the
session is left in, and the number of driver commit attempts made. -/
structure CommitResult where
  result : Except TxnError Unit
  state : TxnState
  attempts : Nat
  deriving Repr

/-- Modelled from the spec: commit_transaction on an in-progress
transaction.  The first driver attempt is made; on the designated
transient-transaction-error signal exactly one retry is made, after which
failure is surfaced.  Any other error is surfaced without retry.  In all
cases the transaction is no longer in-progress afterwards. -/
def commit_transaction (first second : CommitOutcome) : CommitResult :=
  match first with
  | .success => { result := .ok (), state := .ended, attempts := 1 }
  | .fatalError => { result := .error .fatal, state := .ended, attempts := 1 }
  | .transientError =>
    match second with
    | .success => { result := .ok (), state := .ended, attempts := 2 }
    | .transientError => { result := .error .transient, state := .ended, attempts := 2 }
    | .fatalError => { result := .error .fatal, state := .ended, attempts := 2 }

/-- Errors of the session state machine. -/
inductive SessionError
  | invalidState
  deriving DecidableEq, Repr

/-- Modelled from the spec: abort_transaction.  Aborting an active
transaction ends it; aborting an already-ended transaction is a no-op,
not an error; aborting when no transaction was ever started is a state
error. -/
def abort_transaction : TxnState → Except SessionError TxnState
  | .starting => .ok .ended
  | .inProgress => .ok .ended
  | .committing => .ok .ended
  | .aborting => .ok .ended
  | .ended => .ok .ended
  | .noTxn => .error .invalidState

/-! Change-stream watcher construction.  AsyncChangeStream itself
(change_stream.py) is not part of the sample; its construction-time
validation is modelled from the specification. -/

/-- An opaque resume token. -/
structure ResumeToken where
  tag : Nat
  deriving DecidableEq, Repr

/-- An opaque operation timestamp (bson.timestamp.Timestamp). -/
structure OpTimestamp where
  tag : Nat
  deriving DecidableEq, Repr

/-- Configuration errors of change-stream construction. -/
inductive StreamConfigError
  | conflictingResumePoints
  deriving DecidableEq, Repr

/-- An opaque collation value (pymongo.collation.Collation). -/
structure Collation where
  tag : Nat
  deriving DecidableEq, Repr

/-- A constructed change-stream watcher: the construction parameters it
holds. -/
structure ChangeStream where
  pipeline : List MDoc
  full_document : Option String
  resume_after : Option ResumeToken
  max_await_time_ms : Option Nat
  batch_size : Option Nat
  collation : Option Collation
  start_at_operation_time : Option OpTimestamp
  session : Option Nat
  start_after : Option ResumeToken
  deriving DecidableEq, Repr

/-- Number of resume points supplied among resume_after, start_after and
start_at_operation_time. -/
def resumePointCount (resume_after : Option ResumeToken)
    (start_after : Option ResumeToken)
    (start_at_operation_time : Option OpTimestamp) : Nat :=
  (if resume_after.isSome then 1 else 0) +
    (if start_after.isSome then 1 else 0) +
    (if start_at_operation_time.isSome then 1 else 0)

/-- Modelled from the spec: AsyncChangeStream construction.  The resume
point is either an explicit resume token, an explicit start-after token,
or an explicit start timestamp, mutually exclusive; providing more than
one is a configuration error. -/
def mkChangeStream (pipeline : List MDoc) (full_document : Option String)
    (resume_after : Option ResumeToken) (max_await_time_ms : Option Nat)
    (batch_size : Option Nat) (collation : Option Collation)
    (start_at_operation_time : Option OpTimestamp)
    (session : Option AsyncClientSession) (start_after : Option ResumeToken) :
    Except StreamConfigError ChangeStream :=
  if 2 ≤ resumePointCount resume_after start_after start_at_operation_time then
    .error .conflictingResumePoints
  else
    .ok
      { pipeline := pipeline
        full_document := full_document
        resume_after := resume_after
        max_await_time_ms := max_await_time_ms
        batch_size := batch_size
        collation := collation
        start_at_operation_time := start_at_operation_time
        session := sessionArg session
        start_after := start_after }

/-- AsyncClient.watch: forwards every parameter unchanged to the
change-stream constructor. -/
def AsyncClient.watch (_c : AsyncClient) (pipeline : List MDoc)
    (full_document : Option String) (resume_after : Option ResumeToken)
    (max_await_time_ms : Option Nat) (batch_size : Option Nat)
    (collation : Option Collation) (start_at_operation_time : Option OpTimestamp)
    (session : Option AsyncClientSession) (start_after : Option ResumeToken) :
    Except StreamConfigError ChangeStream :=
  mkChangeStream pipeline full_document resume_after max_await_time_ms
    batch_size collation start_at_operation_time session start_after

/-- A concrete client façade used to instantiate universally quantified
statements on sample inputs. -/
def sampleClient : AsyncClient :=
  ⟨{ codec_options := ⟨7⟩, read_preference := ReadPref.secondary
     write_concern := ⟨3⟩, read_concern := ⟨5⟩ }⟩

/-- A concrete database façade over sampleClient. -/
def sampleDatabase : AsyncDatabase :=
  ⟨sampleClient,
   sampleClient.dispatch.get_database "caligo" none none none none⟩

end Caligo

namespace Roboto

/-! Lifecycle of the process-wide worker pool relative to the client
(src/RobOto/core/client.py).  The pool module itself is not part of the
sample; its state is modelled from the specification as a fixed worker
count set at startup. -/

/-- Lifecycle events of a run: the pool and client start/stop calls, and
the opaque body work (coroutine or idle) in between. -/
inductive LifeEvent
  | poolStart
  | clientStart
  | bodyOp
  | clientStop
  | poolStop
  deriving DecidableEq, Repr

/-- Roboto.start: calls pool.start() and then the underlying client
start, in that order. -/
def robotoStart : List LifeEvent := [.poolStart, .clientStart]

/-- Roboto.stop: stops the underlying client first, then awaits
pool.stop(). -/
def robotoStop : List LifeEvent := [.clientStop, .poolStop]

/-- Roboto.go with a body of n opaque steps: start the client, run the
body, then stop via finalized(). -/
def robotoRun (n : Nat) : List LifeEvent :=
  robotoStart ++ List.replicate n .bodyOp ++ robotoStop

/-- Modelled from the spec: the process-wide pool state is the worker
count, fixed at startup, absent before start and after stop. -/
structure PoolLifeState where
  workers : Option Nat
  deriving DecidableEq, Repr

/-- Modelled from the spec: effect of one lifecycle event on the pool
state.  pool.start sizes the pool; pool.stop drains and clears it; no
other event spawns or removes workers. -/
def applyEvent (cap : Nat) (s : PoolLifeState) : LifeEvent → PoolLifeState
  | .poolStart => { workers := some cap }
  | .poolStop => { workers := none }
  | _ => s

/-- Pool state after a prefix of the run trace, starting from no pool. -/
def poolStateAfter (cap : Nat) (evs : List LifeEvent) : PoolLifeState :=
  evs.foldl (applyEvent cap) { workers := none }

end Roboto

namespace Pool

/-! Execution bridge worker-pool scheduler.  util.run_sync and the pool
it submits to are not part of the sample; the scheduling discipline is
modelled from the specification: a bounded pool with per-handle
serialization, first submitted first run for a given handle. -/

/-- A submitted bridge task: the blocking handle it targets and its
submission sequence number. -/
structure PoolTask where
  handle : Nat
  seq : Nat
  deriving DecidableEq, Repr

/-- Scheduler state: tasks not yet started (in submission order), tasks
running on workers, tasks completed (in completion order). -/
structure PoolState where
  pending : List PoolTask
  running : List PoolTask
  done : List PoolTask
  deriving DecidableEq, Repr

/-- The tasks of a list targeting one given handle, in order. -/
def filterH (h : Nat) (l : List PoolTask) : List PoolTask :=
  l.filter (fun t => t.handle == h)

/-- Initial scheduler state for a submission list. -/
def initState (submitted : List PoolTask) : PoolState :=
  { pending := submitted, running := [], done := [] }

/-- Modelled from the spec: one scheduling step of the bounded worker
pool.  A pending task may start only if no earlier pending task targets
the same handle (per-handle FIFO), no running task holds that handle's
mutex, and a worker is free (pool bound).  A running task may finish at
any time, moving to the completion log. -/
inductive PoolStep (cap : Nat) : PoolState → PoolState → Prop
  | start (p₁ p₂ : List PoolTask) (t : PoolTask) (s : PoolState)
      (hp : s.pending = p₁ ++ t :: p₂)
      (hfirst : ∀ u ∈ p₁, u.handle ≠ t.handle)
      (hmutex : ∀ u ∈ s.running, u.handle ≠ t.handle)
      (hcap : s.running.length < cap) :
      PoolStep cap s { pending := p₁ ++ p₂, running := s.running ++ [t], done := s.done }
  | finish (r₁ r₂ : List PoolTask) (t : PoolTask) (s : PoolState)
      (hr : s.running = r₁ ++ t :: r₂) :
      PoolStep cap s { pending := s.pending, running := r₁ ++ r₂, done := s.done ++ [t] }

/-- States reachable from an initial state by scheduler steps. -/
inductive Reachable (cap : Nat) (init : PoolState) : PoolState → Prop
  | refl : Reachable cap init init
  | step {s s₂ : PoolState} : Reachable cap init s → PoolStep cap s s₂ →
      Reachable cap init s₂

/-- The scheduler invariant: for every handle, completed, running and
pending tasks on that handle concatenate back to the submission order,
and at most one task per handle is running. -/
def Inv (submitted : List PoolTask) (s : PoolState) : Prop :=
  ∀ h, filterH h s.done ++ filterH h s.running ++ filterH h s.pending
         = filterH h submitted
       ∧ (filterH h s.running).length ≤ 1

/-- Two tasks against independent handles, submitted in sequence. -/
def demoTasks : List PoolTask := [⟨0, 0⟩, ⟨1, 1⟩]

/-- A state in which both demo tasks run simultaneously. -/
def demoParallel : PoolState :=
  { pending := [], running := [⟨0, 0⟩, ⟨1, 1⟩], done := [] }

end Pool

/-! Theorems. -/

namespace Caligo

/-- C9: drop_database normalizes its argument: calling it with a database
façade is the same as calling it with that façade's name — both forward
the same name and unwrapped session handle to the driver's
drop_database. -/
theorem drop_database_normalizes (c : AsyncClient) (d : AsyncDatabase)
    (session : Option AsyncClientSession) :
    c.drop_database (Sum.inr d) session
      = c.drop_database (Sum.inl d.name) session := rfl

/-- C3: every data-bearing operation of the client façade (close,
drop_database, list_database_names, list_databases, server_info) performs
its driver call only through the execution bridge, never directly. -/
theorem facade_ops_bridge_only (c : AsyncClient)
    (session : Option AsyncClientSession) (nd : String ⊕ AsyncDatabase)
    (kwargs : MDoc) (dbs : List MDoc) :
    (∀ e ∈ c.close, e.isBridge = true) ∧
    (∀ e ∈ c.drop_database nd session, e.isBridge = true) ∧
    (∀ e ∈ c.list_database_names session, e.isBridge = true) ∧
    (∀ e ∈ (c.list_databases session kwargs dbs).1, e.isBridge = true) ∧
    (∀ e ∈ c.server_info session, e.isBridge = true) := by
  refine ⟨?_, ?_, ?_, ?_, ?_⟩ <;>
    simp [AsyncClient.close, AsyncClient.drop_database,
      AsyncClient.list_database_names, AsyncClient.list_databases,
      AsyncClient.server_info, Effect.isBridge]

/-- Witness for C3 at a concrete client and call. -/
theorem facade_ops_bridge_only_witness :
    Effect.isBridge (Effect.bridge DriverCall.closeClient) = true :=
  (facade_ops_bridge_only sampleClient none (Sum.inl "x") [] []).1
    (Effect.bridge DriverCall.closeClient) (by simp [AsyncClient.close])

/-- C1: on every exit path of the session scope (normal, error,
cancellation) the driver session is released before the exit completes,
the transaction is never left in-progress, and if a transaction was
in-progress at exit the abort is issued before the session is closed. -/
theorem with_session_releases (k : ExitKind) (t : TxnState) :
    ((with_session k t).1.released = true) ∧
    ((with_session k t).1.txn ≠ TxnState.inProgress) ∧
    (SessEvent.endSession ∈ (with_session k t).2) ∧
    (t = TxnState.inProgress →
      (with_session k t).2 = [SessEvent.abortTxn, SessEvent.endSession]) := by
  cases t <;> simp [with_session, scopeExit]

/-- Witness for C1 at a concrete abnormal exit with an in-progress
transaction. -/
theorem with_session_releases_witness :
    (with_session ExitKind.error TxnState.inProgress).1.released = true :=
  (with_session_releases ExitKind.error TxnState.inProgress).1

/-- C2: commit retries exactly once on a transient transaction error: a
commit failing once then succeeding is committed; one failing twice
surfaces the error; in every case the transaction is not left
in-progress, at most two driver attempts are made, and a second attempt
happens exactly when the first signalled the transient error. -/
theorem commit_transaction_retry (o1 o2 : CommitOutcome) :
    ((commit_transaction CommitOutcome.transientError CommitOutcome.success).result
        = Except.ok ()) ∧
    ((commit_transaction CommitOutcome.transientError CommitOutcome.success).state
        = TxnState.ended) ∧
    (o2 ≠ CommitOutcome.success →
      ∃ e, (commit_transaction CommitOutcome.transientError o2).result
        = Except.error e) ∧
    ((commit_transaction o1 o2).state ≠ TxnState.inProgress) ∧
    ((commit_transaction o1 o2).attempts ≤ 2) ∧
    ((commit_transaction o1 o2).attempts = 2 ↔ o1 = CommitOutcome.transientError) := by
  cases o1 <;> cases o2 <;> simp [commit_transaction]

/-- Witness for C2 at the double-transient-failure input. -/
theorem commit_transaction_retry_witness :
    (commit_transaction CommitOutcome.transientError CommitOutcome.transientError).state
      ≠ TxnState.inProgress :=
  (commit_transaction_retry CommitOutcome.transientError
    CommitOutcome.transientError).2.2.2.1

/-- C7: abort is idempotent: any state produced by a successful abort can
be aborted again as a no-op, and in particular aborting an already-ended
transaction succeeds and leaves the state unchanged. -/
theorem abort_transaction_idempotent (s t : TxnState)
    (h : abort_transaction s = Except.ok t) :
    abort_transaction t = Except.ok t ∧
    abort_transaction TxnState.ended = Except.ok TxnState.ended := by
  cases s <;> simp only [abort_transaction] at h <;>
    first
    | (injection h with h2; cases h2; exact ⟨rfl, rfl⟩)
    | injection h

/-- Witness for C7: aborting after an abort of an in-progress
transaction. -/
theorem abort_transaction_idempotent_witness :
    abort_transaction TxnState.ended = Except.ok TxnState.ended ∧
    abort_transaction TxnState.ended = Except.ok TxnState.ended :=
  abort_transaction_idempotent TxnState.inProgress TxnState.ended rfl

/-- C5: constructing a change-stream watcher with two or more resume
points among resume_after, start_after and start_at_operation_time is a
configuration error: watch fails instead of producing a stream. -/
theorem watch_conflicting_resume_points (c : AsyncClient)
    (pipeline : List MDoc) (fd : Option String) (ra : Option ResumeToken)
    (mat bs : Option Nat) (col : Option Collation) (saot : Option OpTimestamp)
    (session : Option AsyncClientSession) (sa : Option ResumeToken)
    (h : 2 ≤ resumePointCount ra sa saot) :
    c.watch pipeline fd ra mat bs col saot session sa
      = Except.error StreamConfigError.conflictingResumePoints := by
  simp [AsyncClient.watch, mkChangeStream, h]

/-- Witness for C5: both a resume token and a start-after token. -/
theorem watch_conflicting_resume_points_witness :
    AsyncClient.watch sampleClient [] none (some ⟨1⟩) none none none none none
        (some ⟨2⟩)
      = Except.error StreamConfigError.conflictingResumePoints :=
  watch_conflicting_resume_points sampleClient [] none (some ⟨1⟩) none none none
    none none (some ⟨2⟩) (by decide)

end Caligo

namespace Roboto

/-- Body steps leave the pool state unchanged: no ambient spawning. -/
theorem poolState_bodyOps (cap n : Nat) (s : PoolLifeState) :
    List.foldl (applyEvent cap) s (List.replicate n LifeEvent.bodyOp) = s := by
  induction n with
  | zero => rfl
  | succ n ih => simp [List.replicate_succ, applyEvent, ih]

/-- C8: the worker pool lifecycle is tied to the client: in a full run it
is started exactly once, before the client starts serving, and stopped
exactly once, after the client has stopped; its size is fixed from
startup throughout the run and it is gone after shutdown. -/
theorem roboto_pool_lifecycle (cap n : Nat) :
    ((robotoRun n).count LifeEvent.poolStart = 1) ∧
    ((robotoRun n).count LifeEvent.poolStop = 1) ∧
    List.Sublist [LifeEvent.poolStart, LifeEvent.clientStart,
      LifeEvent.clientStop, LifeEvent.poolStop] (robotoRun n) ∧
    ((poolStateAfter cap robotoStart).workers = some cap) ∧
    ((poolStateAfter cap
        (robotoStart ++ List.replicate n LifeEvent.bodyOp)).workers = some cap) ∧
    ((poolStateAfter cap (robotoRun n)).workers = none) := by
  refine ⟨?_, ?_, ?_, ?_, ?_, ?_⟩
  · simp [robotoRun, robotoStart, robotoStop, List.count_append,
      List.count_replicate, List.count_cons]
  · simp [robotoRun, robotoStart, robotoStop, List.count_append,
      List.count_replicate, List.count_cons]
  · simp only [robotoRun, robotoStart, robotoStop, List.cons_append,
      List.nil_append]
    exact List.Sublist.cons₂ _ (List.Sublist.cons₂ _
      (List.sublist_append_right _ _))
  · rfl
  · simp [poolStateAfter, robotoStart, List.foldl_append, applyEvent,
      poolState_bodyOps]
  · simp [poolStateAfter, robotoRun, robotoStart, robotoStop,
      List.foldl_append, applyEvent, poolState_bodyOps]

end Roboto

namespace Caligo

/-- Setting a key absent from the document appends the pair. -/
theorem sonSet_of_not_mem (d : MDoc) (k : String) (v : MVal)
    (h : ∀ q ∈ d, q.1 ≠ k) : sonSet d k v = d ++ [(k, v)] := by
  have hb : d.any (fun p => p.1 == k) = false := by
    rw [List.any_eq_false]
    intro p hp
    simpa using h p hp
  simp [sonSet, hb]

/-- Updating a document with keyword arguments whose keys are fresh and
pairwise distinct appends them in order. -/
theorem sonUpdate_append (kwargs : MDoc) : ∀ d : MDoc,
    (∀ p ∈ kwargs, ∀ q ∈ d, q.1 ≠ p.1) →
    (kwargs.map Prod.fst).Nodup →
    sonUpdate d kwargs = d ++ kwargs := by
  induction kwargs with
  | nil =>
    intro d _ _
    simp [sonUpdate]
  | cons kv rest ih =>
    intro d hdisj hnd
    rw [List.map_cons, List.nodup_cons] at hnd
    obtain ⟨hk, hnd2⟩ := hnd
    have h1 : sonSet d kv.1 kv.2 = d ++ [kv] :=
      sonSet_of_not_mem d kv.1 kv.2 (fun q hq => hdisj kv (by simp) q hq)
    have hdisj2 : ∀ p ∈ rest, ∀ q ∈ d ++ [kv], q.1 ≠ p.1 := by
      intro p hp q hq
      rcases List.mem_append.mp hq with hq | hq
      · exact hdisj p (by simp [hp]) q hq
      · simp only [List.mem_singleton] at hq
        subst hq
        intro hcontra
        apply hk
        rw [hcontra]
        exact List.mem_map_of_mem Prod.fst hp
    calc sonUpdate d (kv :: rest)
        = sonUpdate (sonSet d kv.1 kv.2) rest := rfl
      _ = sonUpdate (d ++ [kv]) rest := by rw [h1]
      _ = (d ++ [kv]) ++ rest := ih (d ++ [kv]) hdisj2 hnd2
      _ = d ++ kv :: rest := by simp

/-- C10: list_databases always runs against the admin database with
ReadPreference.PRIMARY, DEFAULT_CODEC_OPTIONS and DEFAULT_WRITE_CONCERN,
whatever the client façade's own configuration, and the command document
is the leading listDatabases key followed by the extra keyword
arguments in order. -/
theorem list_databases_admin_primary (c : AsyncClient)
    (session : Option AsyncClientSession) (kwargs : MDoc) (dbs : List MDoc)
    (hdisj : ∀ p ∈ kwargs, p.1 ≠ "listDatabases")
    (hnd : (kwargs.map Prod.fst).Nodup) :
    ∃ db sess,
      (c.list_databases session kwargs dbs).1
        = [Effect.bridge (DriverCall.retryableReadCommand db
            (("listDatabases", MVal.int 1) :: kwargs) sess)] ∧
      db.name = "admin" ∧
      db.codec_options = DEFAULT_CODEC_OPTIONS ∧
      db.read_preference = ReadPref.primary ∧
      db.write_concern = DEFAULT_WRITE_CONCERN ∧
      sess = sessionArg session := by
  refine ⟨c.dispatch.get_database "admin" (some DEFAULT_CODEC_OPTIONS)
      (some ReadPref.primary) (some DEFAULT_WRITE_CONCERN) none,
    sessionArg session, ?_, rfl, rfl, rfl, rfl, rfl⟩
  have hupd : sonUpdate [("listDatabases", MVal.int 1)] kwargs
      = ("listDatabases", MVal.int 1) :: kwargs := by
    have hd : ∀ p ∈ kwargs, ∀ q ∈ ([("listDatabases", MVal.int 1)] : MDoc),
        q.1 ≠ p.1 := by
      intro p hp q hq
      simp only [List.mem_singleton] at hq
      subst hq
      exact Ne.symm (hdisj p hp)
    simpa using sonUpdate_append kwargs [("listDatabases", MVal.int 1)] hd hnd
  simp only [AsyncClient.list_databases]
  rw [hupd]

/-- Witness for C10 at a concrete client and keyword argument. -/
theorem list_databases_admin_primary_witness :
    ∃ db sess,
      (sampleClient.list_databases none [("nameOnly", MVal.int 1)] []).1
        = [Effect.bridge (DriverCall.retryableReadCommand db
            (("listDatabases", MVal.int 1) :: [("nameOnly", MVal.int 1)]) sess)] ∧
      db.name = "admin" ∧
      db.codec_options = DEFAULT_CODEC_OPTIONS ∧
      db.read_preference = ReadPref.primary ∧
      db.write_concern = DEFAULT_WRITE_CONCERN ∧
      sess = sessionArg none :=
  list_databases_admin_primary sampleClient none [("nameOnly", MVal.int 1)] []
    (by decide) (by decide)

/-- Draining a non-exhausted cursor whose cursor id is zero yields the
remaining documents of its only batch, issues no get-more call, and ends
exhausted. -/
theorem cursorDrain_id_zero (gm : Nat → List MDoc × Nat) :
    ∀ (fuel : Nat) (c : CursorState), c.exhausted = false → c.cursorId = 0 →
      c.batch.length - c.index < fuel →
      cursorDrain gm fuel c =
        (c.batch.drop c.index, 0,
         { batch := c.batch, index := max c.index c.batch.length,
           cursorId := 0, exhausted := true }) := by
  intro fuel
  induction fuel with
  | zero =>
    intro c _ _ hf
    exact absurd hf (Nat.not_lt_zero _)
  | succ fuel ih =>
    intro c hex hid hf
    obtain ⟨batch, index, id, ex⟩ := c
    simp only at hex hid hf
    subst hex hid
    by_cases h : index < batch.length
    · have step : cursorNext gm ⟨batch, index, 0, false⟩
          = (some (batch.get ⟨index, h⟩), ⟨batch, index + 1, 0, false⟩, 0) := by
        simp [cursorNext, h]
      have ihr := ih ⟨batch, index + 1, 0, false⟩ rfl rfl (by simp only; omega)
      simp only [cursorDrain, step, ihr]
      have h1 : max (index + 1) batch.length = batch.length := by omega
      have h2 : max index batch.length = batch.length := by omega
      simp only [h1, h2, Nat.zero_add, Nat.add_zero]
      rw [List.drop_eq_getElem_cons h]
      simp
    · have step : cursorNext gm ⟨batch, index, 0, false⟩
          = (none, ⟨batch, index, 0, true⟩, 0) := by
        simp [cursorNext, h]
      simp only [cursorDrain, step]
      have h1 : max index batch.length = index := by omega
      rw [List.drop_eq_nil_of_le (by omega), h1]

/-- C6: the command cursor returned by list_databases is built with
cursor id zero and firstBatch equal to the databases array: iterating it
yields exactly those documents in order, issues no get-more call,
terminates, and further iteration yields no elements. -/
theorem list_databases_cursor_exhausted (c : AsyncClient)
    (session : Option AsyncClientSession) (kwargs : MDoc) (dbs : List MDoc)
    (gm : Nat → List MDoc × Nat) (fuel : Nat) (hfuel : dbs.length < fuel) :
    cursorDrain gm fuel ((c.list_databases session kwargs dbs).2.toState)
      = (dbs, 0, ⟨dbs, dbs.length, 0, true⟩) ∧
    cursorNext gm ⟨dbs, dbs.length, 0, true⟩
      = (none, ⟨dbs, dbs.length, 0, true⟩, 0) := by
  constructor
  · have hst : (c.list_databases session kwargs dbs).2.toState
        = ⟨dbs, 0, 0, false⟩ := rfl
    have hdr := cursorDrain_id_zero gm fuel ⟨dbs, 0, 0, false⟩ rfl rfl
      (by simpa using hfuel)
    rw [hst, hdr]
    simp
  · simp [cursorNext]

/-- Witness for C6 on a two-document databases array. -/
theorem list_databases_cursor_exhausted_witness :
    cursorDrain (fun _ => ([], 0)) 3
        ((sampleClient.list_databases none []
          [[("name", MVal.str "a")], [("name", MVal.str "b")]]).2.toState)
      = ([[("name", MVal.str "a")], [("name", MVal.str "b")]], 0,
         ⟨[[("name", MVal.str "a")], [("name", MVal.str "b")]], 2, 0, true⟩) ∧
    cursorNext (fun _ => ([], 0))
        ⟨[[("name", MVal.str "a")], [("name", MVal.str "b")]], 2, 0, true⟩
      = (none, ⟨[[("name", MVal.str "a")], [("name", MVal.str "b")]], 2, 0, true⟩,
         0) :=
  list_databases_cursor_exhausted sampleClient none []
    [[("name", MVal.str "a")], [("name", MVal.str "b")]]
    (fun _ => ([], 0)) 3 (by decide)

end Caligo

namespace Pool

/-- filterH distributes over append. -/
theorem filterH_append (h : Nat) (l₁ l₂ : List PoolTask) :
    filterH h (l₁ ++ l₂) = filterH h l₁ ++ filterH h l₂ :=
  List.filter_append l₁ l₂

/-- filterH of a list with no task on the handle is empty. -/
theorem filterH_eq_nil {h : Nat} {l : List PoolTask}
    (hl : ∀ u ∈ l, u.handle ≠ h) : filterH h l = [] := by
  rw [filterH, List.filter_eq_nil_iff]
  intro u hu
  simpa using hl u hu

/-- filterH keeps a head task on the handle. -/
theorem filterH_cons_of_eq {h : Nat} {t : PoolTask} (l : List PoolTask)
    (ht : t.handle = h) : filterH h (t :: l) = t :: filterH h l := by
  simp [filterH, List.filter_cons, ht]

/-- filterH drops a head task on another handle. -/
theorem filterH_cons_of_ne {h : Nat} {t : PoolTask} (l : List PoolTask)
    (ht : t.handle ≠ h) : filterH h (t :: l) = filterH h l := by
  simp [filterH, List.filter_cons, ht]

/-- The invariant holds initially: nothing is running or done. -/
theorem inv_init (submitted : List PoolTask) :
    Inv submitted (initState submitted) := by
  intro h
  simp [initState, filterH]

/-- One scheduler step preserves the invariant. -/
theorem inv_step {cap : Nat} {submitted : List PoolTask} {s s₂ : PoolState}
    (hs : Inv submitted s) (hstep : PoolStep cap s s₂) : Inv submitted s₂ := by
  cases hstep with
  | start p₁ p₂ t s hp hfirst hmutex hcap =>
    intro h
    obtain ⟨heq, hlen⟩ := hs h
    rw [hp, filterH_append] at heq
    by_cases hh : t.handle = h
    · have h1 : filterH h p₁ = [] :=
        filterH_eq_nil (fun u hu => by rw [← hh]; exact hfirst u hu)
      have h2 : filterH h s.running = [] :=
        filterH_eq_nil (fun u hu => by rw [← hh]; exact hmutex u hu)
      rw [h1, h2, filterH_cons_of_eq p₂ hh] at heq
      constructor
      · show filterH h s.done ++ filterH h (s.running ++ [t])
            ++ filterH h (p₁ ++ p₂) = filterH h submitted
        rw [filterH_append, filterH_append, h1, h2,
          filterH_cons_of_eq [] hh]
        simpa using heq
      · show (filterH h (s.running ++ [t])).length ≤ 1
        rw [filterH_append, h2, filterH_cons_of_eq [] hh]
        simp [filterH]
    · have ht1 : filterH h [t] = [] := filterH_eq_nil (by simpa using hh)
      rw [filterH_cons_of_ne p₂ hh] at heq
      constructor
      · show filterH h s.done ++ filterH h (s.running ++ [t])
            ++ filterH h (p₁ ++ p₂) = filterH h submitted
        rw [filterH_append, filterH_append, ht1]
        simpa using heq
      · show (filterH h (s.running ++ [t])).length ≤ 1
        rw [filterH_append, ht1]
        simpa using hlen
  | finish r₁ r₂ t s hr =>
    intro h
    obtain ⟨heq, hlen⟩ := hs h
    rw [hr, filterH_append] at heq hlen
    by_cases hh : t.handle = h
    · rw [filterH_cons_of_eq r₂ hh] at heq hlen
      have hlen2 := hlen
      simp only [List.length_append, List.length_cons] at hlen2
      have e1 : filterH h r₁ = [] := List.length_eq_zero.mp (by omega)
      have e2 : filterH h r₂ = [] := List.length_eq_zero.mp (by omega)
      rw [e1, e2] at heq
      constructor
      · show filterH h (s.done ++ [t]) ++ filterH h (r₁ ++ r₂)
            ++ filterH h s.pending = filterH h submitted
        rw [filterH_append, filterH_append, e1, e2,
          filterH_cons_of_eq [] hh]
        simpa using heq
      · show (filterH h (r₁ ++ r₂)).length ≤ 1
        rw [filterH_append, e1, e2]
        simp
    · have ht1 : filterH h [t] = [] := filterH_eq_nil (by simpa using hh)
      rw [filterH_cons_of_ne r₂ hh] at heq hlen
      constructor
      · show filterH h (s.done ++ [t]) ++ filterH h (r₁ ++ r₂)
            ++ filterH h s.pending = filterH h submitted
        rw [filterH_append, filterH_append, ht1]
        simpa using heq
      · show (filterH h (r₁ ++ r₂)).length ≤ 1
        rw [filterH_append]
        simpa using hlen

/-- The invariant holds in every reachable state. -/
theorem inv_reachable {cap : Nat} {submitted : List PoolTask} {s : PoolState}
    (hr : Reachable cap (initState submitted) s) : Inv submitted s := by
  induction hr with
  | refl => exact inv_init submitted
  | step hsteps hstep ih => exact inv_step ih hstep

/-- The demo state with both independent-handle tasks running at once is
reachable with pool capacity two. -/
theorem demo_parallel_reachable :
    Reachable 2 (initState demoTasks) demoParallel := by
  have s1 : PoolStep 2 (initState demoTasks)
      { pending := [⟨1, 1⟩], running := [⟨0, 0⟩], done := [] } := by
    have := @PoolStep.start 2 [] [⟨1, 1⟩] ⟨0, 0⟩ (initState demoTasks)
      rfl (by simp) (by simp [initState]) (by simp [initState])
    simpa [initState] using this
  have s2 : PoolStep 2 { pending := [⟨1, 1⟩], running := [⟨0, 0⟩], done := [] }
      demoParallel := by
    have := @PoolStep.start 2 [] [] (⟨1, 1⟩ : PoolTask)
      { pending := [⟨1, 1⟩], running := [⟨0, 0⟩], done := [] }
      rfl (by simp) (by simp) (by simp)
    simpa [demoParallel] using this
  exact Reachable.step (Reachable.step Reachable.refl s1) s2

/-- C4: in every reachable scheduler state, the tasks completed on any
given handle form a prefix of the submission order for that handle (FIFO
per session handle) and at most one task per handle runs at a time, while
two tasks on independent handles can be running simultaneously when the
pool capacity allows it. -/
theorem pool_fifo_per_handle (cap : Nat) (submitted : List PoolTask)
    (s : PoolState) (hr : Reachable cap (initState submitted) s) (h : Nat) :
    (∃ rest, filterH h s.done ++ rest = filterH h submitted) ∧
    ((filterH h s.running).length ≤ 1) ∧
    (∃ s₂, Reachable 2 (initState demoTasks) s₂ ∧
      s₂.running = [⟨0, 0⟩, ⟨1, 1⟩]) := by
  obtain ⟨heq, hlen⟩ := inv_reachable hr h
  refine ⟨⟨filterH h s.running ++ filterH h s.pending, ?_⟩, hlen,
    demoParallel, demo_parallel_reachable, rfl⟩
  simpa [List.append_assoc] using heq

/-- Witness for C4 at the initial state of the demo submission list. -/
theorem pool_fifo_per_handle_witness :
    (∃ rest, filterH 0 (initState demoTasks).done ++ rest
        = filterH 0 demoTasks) ∧
    ((filterH 0 (initState demoTasks).running).length ≤ 1) ∧
    (∃ s₂, Reachable 2 (initState demoTasks) s₂ ∧
      s₂.running = [⟨0, 0⟩, ⟨1, 1⟩]) :=
  pool_fifo_per_handle 2 demoTasks (initState demoTasks) Reachable.refl 0

end Pool
